import Mathlib

/-
Verification of the Share (transaction) lifecycle and its consistency with the
File and storage-quota subsystems of the FileFlow backend.

The embedding translates the relevant Python source into Lean:
  - app/models/user.py, file.py, folder.py, share.py  -> record types below
  - app/api/v1/files.py   (init_upload, complete_upload, delete_file)
  - app/api/v1/shares.py  (listings, transaction details, receipt)
  - app/api/v1/folders.py (delete_folder, including the ORM cascade declared
    on Folder.files in app/models/folder.py)
Machine integers: the Python layer uses unbounded ints (BigInteger columns),
so quota arithmetic is embedded as Int and identifiers/counters as Nat.
Fallible endpoints return Except with the error taxonomy of spec section 7.
Operations whose bodies are absent from the source tree (the section 4.2
transition operations, send_file whose body is elided behind placeholder
comments, generate_transaction_id from the missing app/core/security.py) are
modelled from the spec and marked as such in their doc comments.
-/

namespace FileFlow

/-- Error taxonomy (spec section 7): NotFound, Forbidden, Conflict,
QuotaExceeded, ValidationError.  HTTP 404 maps to notFound, the 400 raised on
the storage-quota check maps to quotaExceeded, other 400s to validationError. -/
inductive ApiError where
  | notFound
  | forbidden
  | conflict
  | quotaExceeded
  | validationError
deriving DecidableEq, Repr

/-- User row (app/models/user.py): identity plus quota counters. -/
structure UserR where
  uid : Nat
  email : String
  name : String
  storage_used_bytes : Int
  storage_quota_bytes : Int
deriving DecidableEq, Repr

/-- Share permissions JSON (app/models/share.py line 47). -/
structure Permissions where
  view : Bool
  download : Bool
  share : Bool
deriving DecidableEq, Repr

/-- Column default of Share.permissions (app/models/share.py line 47). -/
def defaultPermissions : Permissions :=
  { view := true, download := true, share := false }

/-- File row (app/models/file.py): metadata, storage key, checksum, status
(uploading, uploaded, hidden), soft-delete timestamp, optional folder. -/
structure FileR where
  fid : Nat
  owner_user_id : Nat
  folder_id : Option Nat
  filename : String
  original_filename : String
  size_bytes : Int
  mime_type : String
  storage_key : String
  checksum_sha256 : String
  status : String
  deleted_at : Option Nat
deriving DecidableEq, Repr

/-- Folder row (app/models/folder.py). -/
structure FolderR where
  folid : Nat
  owner_user_id : Nat
  parent_folder_id : Option Nat
  name : String
  position : Int
deriving DecidableEq, Repr

/-- Share (transaction) row (app/models/share.py).  Timestamps are Nat ticks. -/
structure ShareR where
  sid : Nat
  file_id : Nat
  sender_user_id : Nat
  sender_name : String
  sender_email : String
  recipient_user_id : Option Nat
  recipient_email : Option String
  recipient_phone : Option String
  recipient_name : Option String
  target_folder_name : String
  message : Option String
  share_type : String
  transaction_id : String
  status : String
  share_token : Option String
  password_hash : Option String
  expires_at : Option Nat
  max_views : Option Nat
  view_count : Nat
  permissions : Permissions
  delivered_at : Option Nat
  first_viewed_at : Option Nat
  last_viewed_at : Option Nat
  revoked_at : Option Nat
  created_at : Nat
deriving DecidableEq, Repr

/-! ## Share status partial order (spec section 3)

Statuses come from the comment on app/models/share.py line 37:
sent, delivered, viewed, failed, revoked.  The happy path is
sent -> delivered -> viewed; revoked and failed are absorbing terminal
states reachable from any non-terminal state. -/

/-- The five Share statuses of app/models/share.py line 37. -/
def isValidStatus (s : String) : Bool :=
  s == "sent" || s == "delivered" || s == "viewed" || s == "failed" || s == "revoked"

/-- Terminal (absorbing) statuses per spec section 3. -/
def isTerminal (s : String) : Bool :=
  s == "revoked" || s == "failed"

/-- Rank of a status on the happy path sent -> delivered -> viewed. -/
def happyRank (s : String) : Option Nat :=
  if s = "sent" then some 0
  else if s = "delivered" then some 1
  else if s = "viewed" then some 2
  else none

/-- The partial order of spec section 3: reflexive; along the happy path by
rank; any non-terminal status is below both terminal statuses; the two
terminal statuses are incomparable with each other. -/
def statusLe (a b : String) : Bool :=
  a == b ||
    (match happyRank a with
     | some i =>
        isTerminal b ||
          (match happyRank b with
           | some j => decide (i ≤ j)
           | none => false)
     | none => false)

/-! ## Transition operations (spec section 4.2)

No code in the source tree implements the delivery, view or revoke
transitions: app/api/v1/shares.py only reads Share rows, and no other module
mutates Share.status.  The three operations below are therefore modelled
from the spec, against the Share columns that app/models/share.py declares. -/

/-- Modelled from the spec: mark_delivered (section 4.2) is absent from the
source tree.  Allowed only from sent; sets delivered_at if unset; no-op if
already past this state (delivered or viewed); never moves status backward;
from a terminal state the transition is a Conflict. -/
def mark_delivered (s : ShareR) (now : Nat) : Except ApiError ShareR :=
  if s.status = "sent" then
    .ok { s with status := "delivered", delivered_at := some (s.delivered_at.getD now) }
  else if s.status = "delivered" ∨ s.status = "viewed" then
    .ok s
  else
    .error .conflict

/-- A Share whose expires_at has passed is inaccessible (spec section 3). -/
def shareExpired (s : ShareR) (now : Nat) : Bool :=
  match s.expires_at with
  | some e => decide (e < now)
  | none => false

/-- View limit check: view_count has reached max_views, when set
(app/models/share.py lines 43-44, spec section 3). -/
def viewLimitReached (s : ShareR) : Bool :=
  match s.max_views with
  | some m => decide (m ≤ s.view_count)
  | none => false

/-- Modelled from the spec: record_view (section 4.2) is absent from the
source tree.  Allowed only if not revoked, failed, expired or past the view
limit; increments view_count; sets first_viewed_at on the first call, always
updates last_viewed_at; transitions status to viewed. -/
def record_view (s : ShareR) (now : Nat) : Except ApiError ShareR :=
  if s.status = "revoked" ∨ s.status = "failed" then .error .conflict
  else if shareExpired s now then .error .conflict
  else if viewLimitReached s then .error .conflict
  else
    .ok { s with
      view_count := s.view_count + 1,
      first_viewed_at := some (s.first_viewed_at.getD now),
      last_viewed_at := some now,
      status := "viewed" }

/-- Modelled from the spec: revoke (section 4.2) is absent from the source
tree.  Allowed by the sender only (never the recipient); permitted from any
non-terminal state; sets revoked_at and status revoked; idempotent: revoking
an already revoked share is a no-op, not an error.  The other terminal state
(failed) cannot be revived: Conflict. -/
def revoke (s : ShareR) (actorId : Nat) (now : Nat) : Except ApiError ShareR :=
  if actorId ≠ s.sender_user_id then .error .forbidden
  else if s.status = "revoked" then .ok s
  else if s.status = "failed" then .error .conflict
  else .ok { s with status := "revoked", revoked_at := some now }

/-- One transition request against a Share, with its wall-clock tick and, for
revoke, the acting user. -/
inductive ShareOp where
  | markDelivered (now : Nat)
  | recordView (now : Nat)
  | revokeBy (actor : Nat) (now : Nat)
deriving DecidableEq, Repr

/-- Apply one transition; a rejected transition (error) leaves the stored row
unchanged (spec section 7: validation happens before any mutation). -/
def runShareOp (s : ShareR) (op : ShareOp) : ShareR :=
  match op with
  | .markDelivered t => ((mark_delivered s t).toOption).getD s
  | .recordView t => ((record_view s t).toOption).getD s
  | .revokeBy a t => ((revoke s a t).toOption).getD s

/-- Apply a sequence of transition requests left to right. -/
def runShareOps (s : ShareR) (ops : List ShareOp) : ShareR :=
  ops.foldl runShareOp s

/-! ## Status machine lemmas -/

theorem statusLe_refl (s : String) : statusLe s s = true := by
  simp [statusLe]

theorem valid_cases {a : String} (h : isValidStatus a = true) :
    a = "sent" ∨ a = "delivered" ∨ a = "viewed" ∨ a = "failed" ∨ a = "revoked" := by
  have h2 : (((a = "sent" ∨ a = "delivered") ∨ a = "viewed") ∨ a = "failed") ∨
      a = "revoked" := by simpa [isValidStatus] using h
  tauto

theorem statusLe_trans_valid {a b c : String}
    (ha : isValidStatus a = true) (hb : isValidStatus b = true)
    (hc : isValidStatus c = true)
    (h1 : statusLe a b = true) (h2 : statusLe b c = true) :
    statusLe a c = true := by
  rcases valid_cases ha with rfl | rfl | rfl | rfl | rfl <;>
    rcases valid_cases hb with rfl | rfl | rfl | rfl | rfl <;>
      rcases valid_cases hc with rfl | rfl | rfl | rfl | rfl <;>
        revert h1 h2 <;> decide

/-- A transition attempt on a share in a terminal status leaves the row
unchanged entirely. -/
theorem runShareOp_terminal (s : ShareR) (op : ShareOp)
    (h : isTerminal s.status = true) : runShareOp s op = s := by
  have h2 : s.status = "revoked" ∨ s.status = "failed" := by
    simpa [isTerminal] using h
  cases op <;> rcases h2 with hs | hs <;>
    simp [runShareOp, mark_delivered, record_view, revoke, hs, Except.toOption] <;>
    split_ifs <;> simp [Except.toOption]

/-- Single-step monotonicity: any transition attempt moves the status forward
along the partial order (or leaves it in place), and keeps it valid. -/
theorem runShareOp_status_mono (s : ShareR) (op : ShareOp)
    (h : isValidStatus s.status = true) :
    statusLe s.status (runShareOp s op).status = true ∧
      isValidStatus (runShareOp s op).status = true := by
  cases op with
  | markDelivered t =>
    rcases valid_cases h with hs | hs | hs | hs | hs <;>
      simp [runShareOp, mark_delivered, hs, Except.toOption, statusLe,
        happyRank, isTerminal, isValidStatus]
  | recordView t =>
    by_cases he : shareExpired s t = true
    · rcases valid_cases h with hs | hs | hs | hs | hs <;>
        simp [runShareOp, record_view, hs, he, Except.toOption, statusLe,
          happyRank, isTerminal, isValidStatus]
    · by_cases hl : viewLimitReached s = true
      · rcases valid_cases h with hs | hs | hs | hs | hs <;>
          simp [runShareOp, record_view, hs, he, hl, Except.toOption, statusLe,
            happyRank, isTerminal, isValidStatus]
      · rcases valid_cases h with hs | hs | hs | hs | hs <;>
          simp [runShareOp, record_view, hs, he, hl, Except.toOption, statusLe,
            happyRank, isTerminal, isValidStatus]
  | revokeBy a t =>
    by_cases hactor : a ≠ s.sender_user_id
    · rcases valid_cases h with hs | hs | hs | hs | hs <;>
        simp [runShareOp, revoke, hs, hactor, Except.toOption, statusLe,
          happyRank, isTerminal, isValidStatus]
    · rcases valid_cases h with hs | hs | hs | hs | hs <;>
        simp [runShareOp, revoke, hs, hactor, Except.toOption, statusLe,
          happyRank, isTerminal, isValidStatus]

/-- Monotonicity over a whole sequence of transition attempts. -/
theorem runShareOps_status_mono (ops : List ShareOp) (s : ShareR)
    (h : isValidStatus s.status = true) :
    statusLe s.status (runShareOps s ops).status = true ∧
      isValidStatus (runShareOps s ops).status = true := by
  induction ops generalizing s with
  | nil => exact ⟨statusLe_refl s.status, h⟩
  | cons op rest ih =>
    have h1 := runShareOp_status_mono s op h
    have h2 := ih (runShareOp s op) h1.2
    refine ⟨?_, h2.2⟩
    exact statusLe_trans_valid h h1.2 h2.2 h1.1 h2.1

/-- A whole sequence of transition attempts leaves a terminal share
unchanged. -/
theorem runShareOps_terminal (ops : List ShareOp) (s : ShareR)
    (h : isTerminal s.status = true) : runShareOps s ops = s := by
  induction ops generalizing s with
  | nil => rfl
  | cons op rest ih =>
    have h1 := runShareOp_terminal s op h
    simpa [runShareOps, h1] using ih s h

/-- Any transition attempt keeps view_count from decreasing. -/
theorem runShareOp_view_count_mono (s : ShareR) (op : ShareOp) :
    s.view_count ≤ (runShareOp s op).view_count := by
  cases op <;>
    simp only [runShareOp, mark_delivered, record_view, revoke] <;>
    split_ifs <;> simp [Except.toOption]

/-- view_count never decreases over a whole sequence of transition attempts. -/
theorem runShareOps_view_count_mono (ops : List ShareOp) (s : ShareR) :
    s.view_count ≤ (runShareOps s ops).view_count := by
  induction ops generalizing s with
  | nil => exact Nat.le_refl _
  | cons op rest ih =>
    exact Nat.le_trans (runShareOp_view_count_mono s op) (ih (runShareOp s op))

/-- A fully populated Share row in its initial recorded state, used to
instantiate the lifecycle theorems on concrete input. -/
def baseShare : ShareR :=
  { sid := 1, file_id := 10, sender_user_id := 1,
    sender_name := "Alice", sender_email := "alice at example",
    recipient_user_id := some 2, recipient_email := some "bob at example",
    recipient_phone := none, recipient_name := some "Bob",
    target_folder_name := "Inbox",
    message := none, share_type := "direct", transaction_id := "TXN-00000001",
    status := "sent", share_token := none, password_hash := none,
    expires_at := none, max_views := none, view_count := 0,
    permissions := defaultPermissions, delivered_at := none,
    first_viewed_at := none, last_viewed_at := none, revoked_at := none,
    created_at := 100 }

/-- C1: for every Share and every sequence of transition operations applied to
it, the recorded status only ever advances along the partial order
sent -> delivered -> viewed, with revoked and failed absorbing terminal states
reachable from any non-terminal state; no operation ever moves a Share status
backward. -/
theorem share_status_monotone (s : ShareR) (ops : List ShareOp)
    (h : isValidStatus s.status = true) :
    statusLe s.status (runShareOps s ops).status = true
    ∧ isValidStatus (runShareOps s ops).status = true
    ∧ (isTerminal s.status = true → runShareOps s ops = s)
    ∧ (isTerminal s.status = false →
        statusLe s.status "revoked" = true ∧ statusLe s.status "failed" = true ∧
        ∀ t : Nat,
          (runShareOp s (ShareOp.revokeBy s.sender_user_id t)).status = "revoked") := by
  refine ⟨(runShareOps_status_mono ops s h).1, (runShareOps_status_mono ops s h).2,
    runShareOps_terminal ops s, ?_⟩
  intro hterm
  rcases valid_cases h with hs | hs | hs | hs | hs
  · exact ⟨by rw [hs]; decide, by rw [hs]; decide,
      fun t => by simp [runShareOp, revoke, hs, Except.toOption]⟩
  · exact ⟨by rw [hs]; decide, by rw [hs]; decide,
      fun t => by simp [runShareOp, revoke, hs, Except.toOption]⟩
  · exact ⟨by rw [hs]; decide, by rw [hs]; decide,
      fun t => by simp [runShareOp, revoke, hs, Except.toOption]⟩
  · rw [hs] at hterm
    exact absurd hterm (by decide)
  · rw [hs] at hterm
    exact absurd hterm (by decide)

/-- Witness for C1 at a concrete share and operation sequence. -/
theorem share_status_monotone_witness :
    statusLe baseShare.status
      (runShareOps baseShare
        [ShareOp.markDelivered 1, ShareOp.recordView 2, ShareOp.revokeBy 1 3]).status
      = true :=
  (share_status_monotone baseShare
    [ShareOp.markDelivered 1, ShareOp.recordView 2, ShareOp.revokeBy 1 3]
    (by decide)).1

/-- C4: revoke by the sender from any non-terminal state succeeds, sets
revoked_at and status revoked, is idempotent (the second call returns the same
terminal state without error), and any actor other than the sender is
Forbidden. -/
theorem revoke_sender_only_idempotent (s : ShareR) (t t2 : Nat)
    (hval : isValidStatus s.status = true) (hterm : isTerminal s.status = false) :
    ∃ s2 : ShareR, revoke s s.sender_user_id t = Except.ok s2
      ∧ s2.status = "revoked" ∧ s2.revoked_at = some t
      ∧ revoke s2 s.sender_user_id t2 = Except.ok s2
      ∧ ∀ a : Nat, a ≠ s.sender_user_id → revoke s a t = Except.error ApiError.forbidden := by
  rcases valid_cases hval with hs | hs | hs | hs | hs <;>
    first
      | (refine ⟨{ s with status := "revoked", revoked_at := some t }, ?_, rfl, rfl, ?_, ?_⟩
         · simp [revoke, hs]
         · simp [revoke]
         · intro a ha
           simp [revoke, ha])
      | simp [isTerminal, hs] at hterm

/-- Witness for C4 at a concrete share. -/
theorem revoke_sender_only_idempotent_witness :
    ∃ s2 : ShareR, revoke baseShare baseShare.sender_user_id 5 = Except.ok s2
      ∧ s2.status = "revoked" ∧ s2.revoked_at = some 5
      ∧ revoke s2 baseShare.sender_user_id 6 = Except.ok s2
      ∧ ∀ a : Nat, a ≠ baseShare.sender_user_id →
          revoke baseShare a 5 = Except.error ApiError.forbidden :=
  revoke_sender_only_idempotent baseShare 5 6 (by decide) (by decide)

/-- C5: once view_count has reached max_views, a further view attempt fails
the access check and leaves the row unchanged; view_count is monotonically
non-decreasing under every operation sequence. -/
theorem view_limit_enforced (s : ShareR) (m : Nat) (t : Nat)
    (hm : s.max_views = some m) (hcount : m ≤ s.view_count) :
    record_view s t = Except.error ApiError.conflict
    ∧ runShareOp s (ShareOp.recordView t) = s
    ∧ ∀ ops : List ShareOp, s.view_count ≤ (runShareOps s ops).view_count := by
  have hlim : viewLimitReached s = true := by
    simp [viewLimitReached, hm]
    exact hcount
  have h1 : record_view s t = Except.error ApiError.conflict := by
    unfold record_view
    split_ifs <;> simp_all
  refine ⟨h1, ?_, fun ops => runShareOps_view_count_mono ops s⟩
  simp [runShareOp, h1, Except.toOption]

/-- A share with max_views = 3, freshly created. -/
def limitedShare : ShareR :=
  { baseShare with max_views := some 3 }

/-- The limited share after three successful views. -/
def viewedThrice : ShareR :=
  runShareOps limitedShare
    [ShareOp.recordView 1, ShareOp.recordView 2, ShareOp.recordView 3]

/-- Witness for C5: with max_views = 3 the three first views are recorded and
the fourth record_view call fails without incrementing view_count. -/
theorem view_limit_enforced_witness :
    viewedThrice.view_count = 3
    ∧ record_view viewedThrice 4 = Except.error ApiError.conflict
    ∧ runShareOp viewedThrice (ShareOp.recordView 4) = viewedThrice :=
  ⟨by decide, (view_limit_enforced viewedThrice 3 4 (by decide) (by decide)).1,
    (view_limit_enforced viewedThrice 3 4 (by decide) (by decide)).2.1⟩

/-! ## File registry and quota ledger (app/api/v1/files.py)

The three endpoints that the quota claims cite operate on the authenticated
user row and the files table; the state below carries exactly that frame,
plus the fresh-id counter for new file rows. -/

/-- State seen by the file endpoints: the authenticated user row, the files
table, and a fresh primary-key counter. -/
structure FsState where
  user : UserR
  files : List FileR
  nextFid : Nat
deriving DecidableEq, Repr

/-- Embeds init_upload (app/api/v1/files.py lines 38-96): reject a
non-positive size (400), then the quota check (used + size > quota -> the
quota-exceeded 400), then the MAX_FILE_SIZE limit (400); otherwise insert a
file row with status uploading and checksum pending.  The user row is not
touched.  The storage key comes from the external storage gateway and is
modelled as the filename. -/
def newUploadFile (st : FsState) (filename : String) (size_bytes : Int)
    (mime_type : String) (folder_id : Option Nat) : FileR :=
  { fid := st.nextFid, owner_user_id := st.user.uid, folder_id := folder_id,
    filename := filename, original_filename := filename,
    size_bytes := size_bytes, mime_type := mime_type,
    storage_key := filename, checksum_sha256 := "pending",
    status := "uploading", deleted_at := none }

/-- The init_upload endpoint itself; see the comment on newUploadFile for the
row it inserts. -/
def init_upload (st : FsState) (filename : String) (size_bytes : Int)
    (mime_type : String) (folder_id : Option Nat) (maxFileSizeBytes : Int) :
    Except ApiError (FsState × FileR) :=
  if size_bytes ≤ 0 then .error .validationError
  else if st.user.storage_quota_bytes < st.user.storage_used_bytes + size_bytes then
    .error .quotaExceeded
  else if maxFileSizeBytes < size_bytes then .error .validationError
  else
    let f : FileR := newUploadFile st filename size_bytes mime_type folder_id
    .ok ({ st with files := f :: st.files, nextFid := st.nextFid + 1 }, f)

/-- Embeds complete_upload (app/api/v1/files.py lines 179-212): look up the
file by id and owner (404 if absent), set its status to uploaded and add its
size to the owner's storage_used_bytes.  As in the source, there is no check
that the file was still in status uploading. -/
def complete_upload (st : FsState) (file_id : Nat) : Except ApiError FsState :=
  match st.files.find? (fun f => f.fid == file_id && f.owner_user_id == st.user.uid) with
  | none => .error .notFound
  | some f =>
    .ok { st with
      files := st.files.map (fun g =>
        if g.fid == file_id && g.owner_user_id == st.user.uid then
          { g with status := "uploaded" }
        else g),
      user := { st.user with
        storage_used_bytes := st.user.storage_used_bytes + f.size_bytes } }

/-- Embeds delete_file (app/api/v1/files.py lines 345-373): look up the file
by id and owner (404 if absent), set deleted_at (soft delete) and subtract
its size from the owner's storage_used_bytes.  As in the source, the lookup
does not exclude already soft-deleted rows. -/
def delete_file (st : FsState) (file_id : Nat) (now : Nat) : Except ApiError FsState :=
  match st.files.find? (fun f => f.fid == file_id && f.owner_user_id == st.user.uid) with
  | none => .error .notFound
  | some f =>
    .ok { st with
      files := st.files.map (fun g =>
        if g.fid == file_id && g.owner_user_id == st.user.uid then
          { g with deleted_at := some now }
        else g),
      user := { st.user with
        storage_used_bytes := st.user.storage_used_bytes - f.size_bytes } }

/-- Run init_upload; an error response leaves the stored state unchanged
(the endpoint raises before any mutation). -/
def tryInitUpload (st : FsState) (filename : String) (size_bytes : Int)
    (mime_type : String) (folder_id : Option Nat) (maxFileSizeBytes : Int) : FsState :=
  match init_upload st filename size_bytes mime_type folder_id maxFileSizeBytes with
  | .ok (st2, _) => st2
  | .error _ => st

/-- Run complete_upload; an error response leaves the state unchanged. -/
def tryComplete (st : FsState) (file_id : Nat) : FsState :=
  ((complete_upload st file_id).toOption).getD st

/-- Run delete_file; an error response leaves the state unchanged. -/
def tryDelete (st : FsState) (file_id : Nat) (now : Nat) : FsState :=
  ((delete_file st file_id now).toOption).getD st

/-- Evaluation of complete_upload when the addressed file heads the table. -/
theorem complete_upload_cons (u : UserR) (f : FileR) (fs : List FileR) (n : Nat)
    (hown : f.owner_user_id = u.uid) :
    complete_upload ⟨u, f :: fs, n⟩ f.fid =
      Except.ok ⟨{ u with storage_used_bytes := u.storage_used_bytes + f.size_bytes },
        { f with status := "uploaded" } ::
          fs.map (fun g =>
            if g.fid == f.fid && g.owner_user_id == u.uid then
              { g with status := "uploaded" }
            else g), n⟩ := by
  simp [complete_upload, hown]

/-- Evaluation of delete_file when the addressed file heads the table. -/
theorem delete_file_cons (u : UserR) (f : FileR) (fs : List FileR) (n now : Nat)
    (hown : f.owner_user_id = u.uid) :
    delete_file ⟨u, f :: fs, n⟩ f.fid now =
      Except.ok ⟨{ u with storage_used_bytes := u.storage_used_bytes - f.size_bytes },
        { f with deleted_at := some now } ::
          fs.map (fun g =>
            if g.fid == f.fid && g.owner_user_id == u.uid then
              { g with deleted_at := some now }
            else g), n⟩ := by
  simp [delete_file, hown]

/-- C6: with used = U and quota = Q, initiating an upload of size S > 0 with
U + S > Q fails the quota check and leaves U unchanged; otherwise (S within
the size limit) the init/complete flow ends with used = U + S, and deleting
that file returns used to U. -/
theorem quota_consistency (st : FsState) (filename mime_type : String)
    (folder_id : Option Nat) (S mx : Int) (now : Nat) (hS : 0 < S) :
    (st.user.storage_quota_bytes < st.user.storage_used_bytes + S →
      init_upload st filename S mime_type folder_id mx = Except.error ApiError.quotaExceeded
      ∧ (tryInitUpload st filename S mime_type folder_id mx).user.storage_used_bytes
          = st.user.storage_used_bytes)
    ∧ (st.user.storage_used_bytes + S ≤ st.user.storage_quota_bytes → S ≤ mx →
      ∃ st1 f, init_upload st filename S mime_type folder_id mx = Except.ok (st1, f)
        ∧ st1.user.storage_used_bytes = st.user.storage_used_bytes
        ∧ f.size_bytes = S ∧ f.status = "uploading"
        ∧ ∃ st2, complete_upload st1 f.fid = Except.ok st2
            ∧ st2.user.storage_used_bytes = st.user.storage_used_bytes + S
            ∧ ∃ st3, delete_file st2 f.fid now = Except.ok st3
                ∧ st3.user.storage_used_bytes = st.user.storage_used_bytes) := by
  constructor
  · intro hover
    have h1 : init_upload st filename S mime_type folder_id mx
        = Except.error ApiError.quotaExceeded := by
      unfold init_upload
      rw [if_neg (by omega), if_pos hover]
    exact ⟨h1, by simp [tryInitUpload, h1]⟩
  · intro hfit hmax
    have h1 : init_upload st filename S mime_type folder_id mx = Except.ok
        ({ st with
            files := newUploadFile st filename S mime_type folder_id :: st.files,
            nextFid := st.nextFid + 1 },
          newUploadFile st filename S mime_type folder_id) := by
      unfold init_upload
      rw [if_neg (by omega), if_neg (by omega), if_neg (by omega)]
    refine ⟨_, _, h1, rfl, rfl, rfl, ?_⟩
    refine ⟨_, complete_upload_cons st.user
      (newUploadFile st filename S mime_type folder_id) st.files (st.nextFid + 1) rfl,
      by simp [newUploadFile], ?_⟩
    refine ⟨_, delete_file_cons _
      { newUploadFile st filename S mime_type folder_id with status := "uploaded" }
      _ (st.nextFid + 1) now rfl, ?_⟩
    simp [newUploadFile]

/-- A user with used = 0 of quota = 1000, for concrete instantiations. -/
def quotaUser : UserR :=
  { uid := 1, email := "u at example", name := "U",
    storage_used_bytes := 0, storage_quota_bytes := 1000 }

/-- An empty file registry owned by quotaUser. -/
def emptyFs : FsState :=
  { user := quotaUser, files := [], nextFid := 1 }

/-- Witness for C6 at concrete numbers: U = 0, Q = 1000, S = 100,
max size 500. -/
theorem quota_consistency_witness :
    ∃ st1 f,
      init_upload emptyFs "doc.pdf" 100 "application/pdf" none 500
        = Except.ok (st1, f)
      ∧ st1.user.storage_used_bytes = emptyFs.user.storage_used_bytes
      ∧ f.size_bytes = 100 ∧ f.status = "uploading"
      ∧ ∃ st2, complete_upload st1 f.fid = Except.ok st2
          ∧ st2.user.storage_used_bytes = emptyFs.user.storage_used_bytes + 100
          ∧ ∃ st3, delete_file st2 f.fid 7 = Except.ok st3
              ∧ st3.user.storage_used_bytes = emptyFs.user.storage_used_bytes :=
  (quota_consistency emptyFs "doc.pdf" "application/pdf" none 100 500 7
    (by decide)).2 (by decide) (by decide)

/-- A file of 100 bytes still in status uploading, owned by quotaUser. -/
def pendingFile : FileR :=
  { fid := 10, owner_user_id := 1, folder_id := none,
    filename := "doc.pdf", original_filename := "doc.pdf", size_bytes := 100,
    mime_type := "application/pdf", storage_key := "k10",
    checksum_sha256 := "pending", status := "uploading", deleted_at := none }

/-- A state holding one file of 100 bytes still in status uploading, its
owner having used = 0 of quota = 1000. -/
def pendingState : FsState :=
  { user := quotaUser, files := [pendingFile], nextFid := 11 }

/-- C2 fails on the code: complete_upload invoked twice for the same 100-byte
file counts its size twice (used ends at 200, not 100); delete_file invoked
twice after one completion subtracts twice (used ends at -100); and deleting
a file whose upload was never completed decrements without any matching
increment (used ends at -100 from 0). -/
theorem quota_increment_not_once :
    (tryComplete (tryComplete pendingState 10) 10).user.storage_used_bytes = 200
    ∧ (tryDelete (tryDelete (tryComplete pendingState 10) 10 5) 10 6).user.storage_used_bytes
        = -100
    ∧ (tryDelete pendingState 10 5).user.storage_used_bytes = -100 := by decide

/-! ## Share API (app/api/v1/shares.py)

The read endpoints join Share rows against File rows and filter by the
authenticated caller; the whole persisted state is carried explicitly. -/

/-- The persisted relational state: users, folders, files, shares. -/
structure AppState where
  users : List UserR
  folders : List FolderR
  files : List FileR
  shares : List ShareR
deriving DecidableEq, Repr

/-- The SQL inner join of one Share row against the files table
(join File, Share.file_id == File.id). -/
def joinFile (files : List FileR) (sh : ShareR) : Option (ShareR × FileR) :=
  (files.find? (fun f => f.fid == sh.file_id)).map (fun f => (sh, f))

/-- Insertion step for ordering joined rows by created_at descending
(order_by Share.created_at.desc()). -/
def insertByCreated (p : ShareR × FileR) :
    List (ShareR × FileR) → List (ShareR × FileR)
  | [] => [p]
  | q :: rest =>
    if q.1.created_at ≤ p.1.created_at then p :: q :: rest
    else q :: insertByCreated p rest

/-- Order joined rows by created_at descending. -/
def sortByCreatedDesc (l : List (ShareR × FileR)) : List (ShareR × FileR) :=
  l.foldr insertByCreated []

theorem mem_insertByCreated (x p : ShareR × FileR) (l : List (ShareR × FileR)) :
    x ∈ insertByCreated p l ↔ x = p ∨ x ∈ l := by
  induction l with
  | nil => simp [insertByCreated]
  | cons q rest ih =>
    simp only [insertByCreated]
    split_ifs <;> simp [ih, or_left_comm]

theorem mem_sortByCreatedDesc (x : ShareR × FileR) (l : List (ShareR × FileR)) :
    x ∈ sortByCreatedDesc l ↔ x ∈ l := by
  induction l with
  | nil => simp [sortByCreatedDesc]
  | cons p rest ih =>
    simp only [sortByCreatedDesc, List.foldr, List.mem_cons] at *
    rw [mem_insertByCreated, ih]

/-- Embeds get_sent_transactions (app/api/v1/shares.py lines 64-94): all
Share rows whose sender_user_id is the caller, joined against File, ordered
by creation time descending. -/
def get_sent_transactions (st : AppState) (caller : UserR) :
    List (ShareR × FileR) :=
  sortByCreatedDesc
    ((st.shares.filter (fun sh => sh.sender_user_id == caller.uid)).filterMap
      (joinFile st.files))

/-- Embeds get_received_transactions (app/api/v1/shares.py lines 96-131):
all Share rows whose recipient_user_id is the caller or whose
recipient_email equals the caller's email, joined against File, ordered by
creation time descending. -/
def get_received_transactions (st : AppState) (caller : UserR) :
    List (ShareR × FileR) :=
  sortByCreatedDesc
    ((st.shares.filter (fun sh =>
        sh.recipient_user_id == some caller.uid
          || sh.recipient_email == some caller.email)).filterMap
      (joinFile st.files))

/-- Visibility predicate of the single-transaction endpoints
(app/api/v1/shares.py lines 141-151 and 192-202): transaction_id matches and
the caller is the sender or the recipient by recipient_user_id; a recipient
identified only by email does not match. -/
def detailVisible (caller : UserR) (tid : String) (p : ShareR × FileR) : Bool :=
  p.1.transaction_id == tid
    && (p.1.sender_user_id == caller.uid
          || p.1.recipient_user_id == some caller.uid)

/-- Embeds get_transaction_details (app/api/v1/shares.py lines 133-182):
the first joined row matching the visibility predicate, else 404. -/
def get_transaction_details (st : AppState) (caller : UserR) (tid : String) :
    Except ApiError (ShareR × FileR) :=
  match (st.shares.filterMap (joinFile st.files)).find? (detailVisible caller tid) with
  | none => .error .notFound
  | some p => .ok p

/-- C8: a Share from sender A to recipient B (recipient held as a user id, or
only as an email) appears, joined with its File, in the sent listing of A and
the received listing of B, and the underlying Share row appears in no other
user's sent or received listing.  The hypotheses record that the Share's
recipient fields denote B and nobody else, which creation guarantees because
user emails are unique. -/
theorem listing_isolation (st : AppState) (A B : UserR) (sh : ShareR) (f : FileR)
    (hmem : sh ∈ st.shares)
    (hfile : st.files.find? (fun g => g.fid == sh.file_id) = some f)
    (hsender : sh.sender_user_id = A.uid)
    (hrecip : sh.recipient_user_id = some B.uid ∨
        (sh.recipient_user_id = none ∧ sh.recipient_email = some B.email))
    (hemail : sh.recipient_email = none ∨ sh.recipient_email = some B.email) :
    (sh, f) ∈ get_sent_transactions st A
    ∧ (sh, f) ∈ get_received_transactions st B
    ∧ (∀ C : UserR, C.uid ≠ A.uid →
        ∀ p ∈ get_sent_transactions st C, p.1 ≠ sh)
    ∧ (∀ C : UserR, C.uid ≠ B.uid → C.email ≠ B.email →
        ∀ p ∈ get_received_transactions st C, p.1 ≠ sh) := by
  refine ⟨?_, ?_, ?_, ?_⟩
  · rw [get_sent_transactions, mem_sortByCreatedDesc, List.mem_filterMap]
    refine ⟨sh, ?_, ?_⟩
    · rw [List.mem_filter]
      exact ⟨hmem, by simp [hsender]⟩
    · simp [joinFile, hfile]
  · rw [get_received_transactions, mem_sortByCreatedDesc, List.mem_filterMap]
    refine ⟨sh, ?_, ?_⟩
    · rw [List.mem_filter]
      refine ⟨hmem, ?_⟩
      rcases hrecip with h | ⟨h1, h2⟩
      · simp [h]
      · simp [h1, h2]
    · simp [joinFile, hfile]
  · intro C hC p hp
    rw [get_sent_transactions, mem_sortByCreatedDesc, List.mem_filterMap] at hp
    obtain ⟨a, ha, hj⟩ := hp
    rw [List.mem_filter] at ha
    have haeq : a = p.1 := by
      simp only [joinFile, Option.map_eq_some'] at hj
      obtain ⟨f0, _, hf0⟩ := hj
      rw [← hf0]
    intro hps
    have hsent := ha.2
    rw [haeq, hps, hsender] at hsent
    have h2 : A.uid = C.uid := by simpa using hsent
    exact hC h2.symm
  · intro C hCu hCe p hp
    rw [get_received_transactions, mem_sortByCreatedDesc, List.mem_filterMap] at hp
    obtain ⟨a, ha, hj⟩ := hp
    rw [List.mem_filter] at ha
    have haeq : a = p.1 := by
      simp only [joinFile, Option.map_eq_some'] at hj
      obtain ⟨f0, _, hf0⟩ := hj
      rw [← hf0]
    intro hps
    have hcond := ha.2
    rw [haeq, hps] at hcond
    simp only [Bool.or_eq_true, beq_iff_eq] at hcond
    rcases hcond with h | h
    · rcases hrecip with hr | ⟨hr, _⟩
      · rw [hr] at h
        exact hCu (Option.some.inj h).symm
      · rw [hr] at h
        simp at h
    · rcases hemail with he | he
      · rw [he] at h
        simp at h
      · rw [he] at h
        exact hCe (Option.some.inj h).symm

/-- Alice, the sender in the concrete scenarios. -/
def aliceUser : UserR :=
  { uid := 1, email := "alice at example", name := "Alice",
    storage_used_bytes := 100, storage_quota_bytes := 1000 }

/-- Bob, the recipient in the concrete scenarios. -/
def bobUser : UserR :=
  { uid := 2, email := "bob at example", name := "Bob",
    storage_used_bytes := 0, storage_quota_bytes := 1000 }

/-- Carol, a third user, party to nothing. -/
def carolUser : UserR :=
  { uid := 3, email := "carol at example", name := "Carol",
    storage_used_bytes := 0, storage_quota_bytes := 1000 }

/-- The uploaded file that baseShare references. -/
def sharedFile : FileR :=
  { fid := 10, owner_user_id := 1, folder_id := none,
    filename := "doc.pdf", original_filename := "doc.pdf", size_bytes := 100,
    mime_type := "application/pdf", storage_key := "k10",
    checksum_sha256 := "abc123", status := "uploaded", deleted_at := none }

/-- The Share of baseShare, with the recipient identified only by email
(recipient_user_id unset), as for shares created before the recipient had an
account. -/
def emailOnlyShare : ShareR :=
  { baseShare with
      recipient_user_id := none,
      recipient_email := some "bob at example" }

/-- Concrete persisted state: three users, one file, one share whose
recipient is identified only by email. -/
def shareSt : AppState :=
  { users := [aliceUser, bobUser, carolUser], folders := [],
    files := [sharedFile], shares := [emailOnlyShare] }

/-- Witness for C8 on the concrete state: the share appears in the sent
listing of Alice and the received listing of Bob, and the Share row is in
nobody else's listings. -/
theorem listing_isolation_witness :
    (emailOnlyShare, sharedFile) ∈ get_sent_transactions shareSt aliceUser
    ∧ (emailOnlyShare, sharedFile) ∈ get_received_transactions shareSt bobUser
    ∧ (∀ C : UserR, C.uid ≠ aliceUser.uid →
        ∀ p ∈ get_sent_transactions shareSt C, p.1 ≠ emailOnlyShare)
    ∧ (∀ C : UserR, C.uid ≠ bobUser.uid → C.email ≠ bobUser.email →
        ∀ p ∈ get_received_transactions shareSt C, p.1 ≠ emailOnlyShare) :=
  listing_isolation shareSt aliceUser bobUser emailOnlyShare sharedFile
    (by decide) (by decide) (by decide) (by decide) (by decide)

/-- C9 fails on the code: Bob is a party to the share (its recipient,
identified only by email), yet GET of the transaction details returns 404 to
him, because the endpoint matches recipient_user_id only and never
recipient_email (app/api/v1/shares.py lines 146-149). -/
theorem details_email_recipient_gets_404 :
    emailOnlyShare.recipient_email = some bobUser.email
    ∧ emailOnlyShare ∈ shareSt.shares
    ∧ joinFile shareSt.files emailOnlyShare = some (emailOnlyShare, sharedFile)
    ∧ get_transaction_details shareSt bobUser emailOnlyShare.transaction_id
        = Except.error ApiError.notFound := by
  refine ⟨rfl, by decide, rfl, rfl⟩

/-- C9 as amended: the details endpoint returns the Share detail when the
caller is the sender or is the recipient by recipient_user_id, and 404
exactly otherwise; a recipient identified only by email is treated as not a
party. -/
theorem details_party_by_id (st : AppState) (caller : UserR) (tid : String) :
    (∀ p, get_transaction_details st caller tid = Except.ok p →
      p.1 ∈ st.shares ∧ p.1.transaction_id = tid
        ∧ (p.1.sender_user_id = caller.uid
            ∨ p.1.recipient_user_id = some caller.uid))
    ∧ (get_transaction_details st caller tid = Except.error ApiError.notFound →
      ∀ sh ∈ st.shares, ∀ f, joinFile st.files sh = some (sh, f) →
        ¬(sh.transaction_id = tid ∧
          (sh.sender_user_id = caller.uid
            ∨ sh.recipient_user_id = some caller.uid))) := by
  constructor
  · intro p hp
    rw [get_transaction_details] at hp
    cases hfind : (st.shares.filterMap (joinFile st.files)).find?
        (detailVisible caller tid) with
    | none => rw [hfind] at hp; cases hp
    | some q =>
      rw [hfind] at hp
      cases hp
      have hvis := List.find?_some hfind
      have hmem := List.mem_of_find?_eq_some hfind
      rw [List.mem_filterMap] at hmem
      obtain ⟨a, ha, hj⟩ := hmem
      have haeq : a = p.1 := by
        simp only [joinFile, Option.map_eq_some'] at hj
        obtain ⟨f0, _, hf0⟩ := hj
        rw [← hf0]
      rw [detailVisible] at hvis
      simp only [Bool.and_eq_true, Bool.or_eq_true, beq_iff_eq] at hvis
      exact ⟨haeq ▸ ha, hvis.1, hvis.2⟩
  · intro herr sh hsh f hj hbad
    rw [get_transaction_details] at herr
    cases hfind : (st.shares.filterMap (joinFile st.files)).find?
        (detailVisible caller tid) with
    | some q => rw [hfind] at herr; cases herr
    | none =>
      have hnone := List.find?_eq_none.mp hfind (sh, f) ?_
      · rw [detailVisible] at hnone
        simp only [Bool.and_eq_true, Bool.or_eq_true, beq_iff_eq] at hnone
        exact hnone ⟨hbad.1, hbad.2⟩
      · rw [List.mem_filterMap]
        exact ⟨sh, hsh, hj⟩

/-- Witness for C9 as amended: Alice, the sender, retrieves the detail of a
share and the theorem yields her party status. -/
theorem details_party_by_id_witness :
    (emailOnlyShare, sharedFile).1 ∈ shareSt.shares
    ∧ (emailOnlyShare, sharedFile).1.transaction_id = "TXN-00000001"
    ∧ ((emailOnlyShare, sharedFile).1.sender_user_id = aliceUser.uid
        ∨ (emailOnlyShare, sharedFile).1.recipient_user_id = some aliceUser.uid) :=
  (details_party_by_id shareSt aliceUser "TXN-00000001").1
    (emailOnlyShare, sharedFile) rfl

/-! ## Receipt generation (app/api/v1/shares.py lines 184-234)

The endpoint reads the share and file rows and computes a verification
signature over the string
transaction_id:created_at:sender_id:recipient_id:file_checksum.  The module
applies hashlib.sha256 without importing hashlib, so in the source every
request to this endpoint raises NameError; the definitions below embed the
computation the code spells out.  -/

/-- Models hashlib.sha256(x.encode()).hexdigest(): SHA-256 is replaced by an
executable tagging function that is deterministic and injective; determinism
and freedom from collisions are the two properties the receipt verification
relies on (SHA-256 collisions being considered infeasible). -/
def sha256hex (s : String) : String :=
  "sha256:" ++ s

/-- The colon-joined prefix of the signature base string: transaction_id,
created_at, sender_user_id, recipient_user_id (None when unset), each
followed by a colon, exactly as the f-string on line 211 lays them out. -/
def sigPrefix (sh : ShareR) : String :=
  sh.transaction_id ++ ":" ++ Nat.repr sh.created_at ++ ":"
    ++ Nat.repr sh.sender_user_id ++ ":"
    ++ (match sh.recipient_user_id with
        | some r => Nat.repr r
        | none => "None") ++ ":"

/-- The full signature base string of line 211: the prefix fields followed by
the file's checksum_sha256. -/
def signature_base (sh : ShareR) (f : FileR) : String :=
  sigPrefix sh ++ f.checksum_sha256

/-- The last n characters of a string, as the Python slice s[-n:]. -/
def lastChars (s : String) (n : Nat) : String :=
  String.mk (s.data.drop (s.data.length - n))

/-- Receipt payload of app/api/v1/shares.py lines 214-234 (the fields the
claims speak about). -/
structure Receipt where
  receipt_id : String
  transaction_id : String
  timestamp : Nat
  status : String
  item_checksum : String
  verification_signature : String
deriving DecidableEq, Repr

/-- Embeds get_transaction_receipt (app/api/v1/shares.py lines 184-234):
same row lookup as the details endpoint, then the receipt payload with the
computed verification signature; status surfaces as SUCCESS for
sent/delivered/viewed and literally otherwise.  The endpoint only reads. -/
def get_transaction_receipt (st : AppState) (caller : UserR) (tid : String) :
    Except ApiError Receipt :=
  match (st.shares.filterMap (joinFile st.files)).find? (detailVisible caller tid) with
  | none => .error .notFound
  | some (sh, f) =>
    .ok { receipt_id := "RCPT-" ++ lastChars sh.transaction_id 8,
          transaction_id := sh.transaction_id,
          timestamp := sh.created_at,
          status :=
            if sh.status = "sent" ∨ sh.status = "delivered" ∨ sh.status = "viewed"
            then "SUCCESS" else sh.status,
          item_checksum := f.checksum_sha256,
          verification_signature := sha256hex (signature_base sh f) }

theorem string_append_left_cancel {a b c : String} (h : a ++ b = a ++ c) :
    b = c := by
  have h2 : a.data ++ b.data = a.data ++ c.data := by
    have h3 := congrArg String.data h
    simpa [String.data_append] using h3
  cases b with
  | mk bd =>
    cases c with
    | mk cd =>
      have h4 : bd = cd := List.append_cancel_left h2
      rw [h4]

/-- C3 on the computation the code spells out (the endpoint itself never
reaches it, hashlib being unbound in the module): receipt generation is
deterministic, the recorded signature is a function of the signature base
over transaction_id, created_at, sender, recipient and file checksum, and a
mutated checksum always yields a different signature, so recomputation
detects the mismatch. -/
theorem receipt_signature_tamper_evident (st : AppState) (caller : UserR)
    (tid : String) (sh : ShareR) (f g : FileR)
    (hne : g.checksum_sha256 ≠ f.checksum_sha256) :
    get_transaction_receipt st caller tid = get_transaction_receipt st caller tid
    ∧ sha256hex (signature_base sh f) = sha256hex (signature_base sh f)
    ∧ sha256hex (signature_base sh g) ≠ sha256hex (signature_base sh f) := by
  refine ⟨rfl, rfl, ?_⟩
  intro heq
  apply hne
  have h1 : signature_base sh g = signature_base sh f :=
    string_append_left_cancel heq
  exact string_append_left_cancel h1

/-- Witness for C3 at a concrete share, file and tampered checksum. -/
theorem receipt_signature_tamper_evident_witness :
    get_transaction_receipt shareSt bobUser "TXN-00000001"
      = get_transaction_receipt shareSt bobUser "TXN-00000001"
    ∧ sha256hex (signature_base emailOnlyShare sharedFile)
        = sha256hex (signature_base emailOnlyShare sharedFile)
    ∧ sha256hex (signature_base emailOnlyShare
          { sharedFile with checksum_sha256 := "tampered" })
        ≠ sha256hex (signature_base emailOnlyShare sharedFile) :=
  receipt_signature_tamper_evident shareSt bobUser "TXN-00000001"
    emailOnlyShare sharedFile { sharedFile with checksum_sha256 := "tampered" }
    (by decide)

/-! ## Share creation (spec section 4.1)

The body of send_file in app/api/v1/shares.py is elided behind placeholder
comments, and generate_transaction_id lives in app/core/security.py which is
absent from the source tree; creation is therefore modelled from the spec,
using the column defaults that app/models/share.py does declare. -/

/-- Modelled from the spec: send_file (section 4.1).  Verify the sender owns
the referenced File (else NotFound), resolve the recipient by email among
the users, snapshot sender and recipient display names onto the row, assign
the transaction id produced by the external unique generator, and initialize
status = sent, view_count = 0 and the default permissions
(app/models/share.py lines 33-47 column defaults).  No File row and no user
row is touched: the share is prepended to the shares table only. -/
def send_file (st : AppState) (sender : UserR) (file_id : Nat)
    (recipient_email recipient_phone : Option String)
    (target_folder_name : String) (message : Option String)
    (share_type : String) (tid : String) (sid now : Nat) :
    Except ApiError (AppState × ShareR) :=
  match st.files.find? (fun f => f.fid == file_id && f.owner_user_id == sender.uid) with
  | none => .error .notFound
  | some f =>
    let recUser := st.users.find? (fun u => some u.email == recipient_email)
    let sh : ShareR :=
      { sid := sid, file_id := f.fid, sender_user_id := sender.uid,
        sender_name := sender.name, sender_email := sender.email,
        recipient_user_id := recUser.map (fun u => u.uid),
        recipient_email := recipient_email,
        recipient_phone := recipient_phone,
        recipient_name := recUser.map (fun u => u.name),
        target_folder_name := target_folder_name, message := message,
        share_type := share_type, transaction_id := tid, status := "sent",
        share_token := none, password_hash := none, expires_at := none,
        max_views := none, view_count := 0, permissions := defaultPermissions,
        delivered_at := none, first_viewed_at := none, last_viewed_at := none,
        revoked_at := none, created_at := now }
    .ok ({ st with shares := sh :: st.shares }, sh)

/-- Every transition operation preserves transaction_id. -/
theorem runShareOp_transaction_id (s : ShareR) (op : ShareOp) :
    (runShareOp s op).transaction_id = s.transaction_id := by
  cases op <;>
    simp only [runShareOp, mark_delivered, record_view, revoke] <;>
    split_ifs <;> simp [Except.toOption]

/-- transaction_id survives every sequence of transition operations
unchanged: assigned once at creation, never reassigned. -/
theorem runShareOps_transaction_id (ops : List ShareOp) (s : ShareR) :
    (runShareOps s ops).transaction_id = s.transaction_id := by
  induction ops generalizing s with
  | nil => rfl
  | cons op rest ih =>
    rw [runShareOps, List.foldl_cons, ← runShareOps, ih, runShareOp_transaction_id]

/-- C7: a successful share creation yields a Share with status sent,
view_count 0, the default permissions, and the fresh transaction id, which
differs from every existing share's id and is never changed by any later
transition sequence; creation touches no File row and no user row. -/
theorem send_file_initializes (st : AppState) (sender : UserR) (file_id : Nat)
    (re rp : Option String) (tfn : String) (msg : Option String)
    (stype tid : String) (sid now : Nat) (st2 : AppState) (sh : ShareR)
    (hfresh : ∀ s0 ∈ st.shares, s0.transaction_id ≠ tid)
    (hok : send_file st sender file_id re rp tfn msg stype tid sid now
        = Except.ok (st2, sh)) :
    sh.status = "sent" ∧ sh.view_count = 0
    ∧ sh.permissions = defaultPermissions ∧ sh.transaction_id = tid
    ∧ (∀ s0 ∈ st.shares, s0.transaction_id ≠ sh.transaction_id)
    ∧ st2.files = st.files ∧ st2.users = st.users
    ∧ st2.shares = sh :: st.shares
    ∧ (∀ ops : List ShareOp, (runShareOps sh ops).transaction_id = tid) := by
  rw [send_file] at hok
  cases hfind : st.files.find?
      (fun f => f.fid == file_id && f.owner_user_id == sender.uid) with
  | none => rw [hfind] at hok; cases hok
  | some f =>
    rw [hfind] at hok
    simp only [Except.ok.injEq, Prod.mk.injEq] at hok
    obtain ⟨hst2, hsh⟩ := hok
    subst hst2
    refine ⟨by rw [← hsh], by rw [← hsh], by rw [← hsh], by rw [← hsh], ?_,
      rfl, rfl, by rw [← hsh], ?_⟩
    · intro s0 hs0
      rw [← hsh]
      exact hfresh s0 hs0
    · intro ops
      rw [runShareOps_transaction_id, ← hsh]

/-- The Share row that the concrete creation scenario produces. -/
def witnessShare : ShareR :=
  { sid := 2, file_id := 10, sender_user_id := 1, sender_name := "Alice",
    sender_email := "alice at example", recipient_user_id := some 2,
    recipient_email := some "bob at example", recipient_phone := none,
    recipient_name := some "Bob", target_folder_name := "Inbox",
    message := none, share_type := "direct", transaction_id := "TXN-00000002",
    status := "sent", share_token := none, password_hash := none,
    expires_at := none, max_views := none, view_count := 0,
    permissions := defaultPermissions, delivered_at := none,
    first_viewed_at := none, last_viewed_at := none, revoked_at := none,
    created_at := 200 }

/-- The state after the concrete creation scenario. -/
def witnessState : AppState :=
  { shareSt with shares := witnessShare :: shareSt.shares }

/-- Witness for C7: Alice shares her uploaded file with Bob on the concrete
state. -/
theorem send_file_initializes_witness :
    witnessShare.status = "sent" ∧ witnessShare.view_count = 0
    ∧ witnessShare.permissions = defaultPermissions
    ∧ witnessShare.transaction_id = "TXN-00000002"
    ∧ (∀ s0 ∈ shareSt.shares, s0.transaction_id ≠ witnessShare.transaction_id)
    ∧ witnessState.files = shareSt.files ∧ witnessState.users = shareSt.users
    ∧ witnessState.shares = witnessShare :: shareSt.shares
    ∧ (∀ ops : List ShareOp,
        (runShareOps witnessShare ops).transaction_id = "TXN-00000002") :=
  send_file_initializes shareSt aliceUser 10 (some "bob at example") none
    "Inbox" none "direct" "TXN-00000002" 2 200 witnessState witnessShare
    (by decide) rfl

/-! ## Folder deletion (app/api/v1/folders.py lines 108-129)

The endpoint looks the folder up by id and owner and deletes it through the
ORM session.  Because app/models/folder.py line 28 declares the Folder.files
relationship with cascade all, delete-orphan, the ORM deletes every File row
whose folder relationship points at the folder, instead of letting the
database foreign key (files.folder_id, ondelete SET NULL, both in
app/models/file.py line 12 and the migration) null the reference. -/

/-- Embeds delete_folder together with the ORM cascade: the folder row and
every file row placed in it are removed. -/
def delete_folder (st : AppState) (caller : UserR) (folder_id : Nat) :
    Except ApiError AppState :=
  match st.folders.find?
      (fun fo => fo.folid == folder_id && fo.owner_user_id == caller.uid) with
  | none => .error .notFound
  | some _ =>
    .ok { st with
      folders := st.folders.filter (fun fo => !(fo.folid == folder_id)),
      files := st.files.filter (fun f => !(f.folder_id == some folder_id)) }

/-- A folder of Alice. -/
def docsFolder : FolderR :=
  { folid := 1, owner_user_id := 1, parent_folder_id := none,
    name := "Docs", position := 0 }

/-- A file of Alice placed in docsFolder. -/
def filedFile : FileR :=
  { fid := 20, owner_user_id := 1, folder_id := some 1,
    filename := "in-folder.pdf", original_filename := "in-folder.pdf",
    size_bytes := 50, mime_type := "application/pdf", storage_key := "k20",
    checksum_sha256 := "def456", status := "uploaded", deleted_at := none }

/-- Concrete state for folder deletion: Alice owns one folder holding one
file. -/
def folderSt : AppState :=
  { users := [aliceUser], folders := [docsFolder], files := [filedFile],
    shares := [] }

/-- C10 fails on the code: deleting the folder removes the File row that was
placed in it (ORM cascade all, delete-orphan), rather than keeping the File
with its folder reference set to none. -/
theorem delete_folder_cascade_deletes_files :
    delete_folder folderSt aliceUser 1
      = Except.ok { folderSt with folders := [], files := [] } := by
  rfl

end FileFlow
